import Mathlib

/-!
Verification of the singleton-coordination and deep-link IPC subsystem of
`gioui.org/app` (file `app/os_unix.go`): the `init` startup routine that
probes the rendezvous unix socket and decides the Leader/Follower role, and
the `listenToSocketConn` accept loop that parses newline-delimited payloads
into URL events.

The Go code is embedded shallowly: each environment interaction
(`net.Dial`, `net.Listen`, `conn.Write`, `createDesktopEntry`,
`socketConn.Accept`) becomes an explicit parameter recording its outcome,
and the side-effecting calls the code performs are collected in order in an
action trace.
-/

namespace Gio

/-! ## Models of the Go standard-library string and path helpers -/

/-- Model of `strings.Split(s, sep)` for a one-character separator, on
`List Char`: splitting the empty list yields `[[]]` (Go returns `[""]`),
and a trailing separator yields a trailing empty fragment, exactly as in
Go. -/
def goSplitChar (sep : Char) : List Char → List (List Char)
  | [] => [[]]
  | x :: xs =>
    let r := goSplitChar sep xs
    if x = sep then [] :: r
    else
      match r with
      | [] => [[x]]
      | h :: t => (x :: h) :: t

/-- Model of `strings.Split(s, "\n")` on `String`. -/
def goSplitNl (s : String) : List String :=
  (goSplitChar '\n' s.data).map String.mk

/-- Model of `strings.Join(elems, sep)`. -/
def goJoin (sep : String) : List String → String
  | [] => ""
  | [x] => x
  | x :: y :: xs => x ++ sep ++ goJoin sep (y :: xs)

/-- Model of `strings.HasSuffix(s, t)`: `t.length ≤ s.length` and the last
`t.length` characters of `s` equal `t`. -/
def goHasSuffix (s t : String) : Bool :=
  decide (t.length ≤ s.length) && decide (s.data.drop (s.length - t.length) = t.data)

/-- One step of the lexical cleaning of `path.Clean`: components `""` and
`"."` are dropped; `".."` pops a previous component when possible, is
dropped at the root, and is kept when there is nothing to pop in a relative
path; any other component is pushed. The accumulated stack is kept in
reverse order. -/
def cleanFold (rooted : Bool) : List String → List String → List String
  | stack, [] => stack
  | stack, c :: rest =>
    if c = "" || c = "." then cleanFold rooted stack rest
    else if c = ".." then
      match stack with
      | [] => cleanFold rooted (if rooted then [] else [".."]) rest
      | top :: stack' =>
        if top = ".." then cleanFold rooted (".." :: top :: stack') rest
        else cleanFold rooted stack' rest
    else cleanFold rooted (c :: stack) rest

/-- Model of `path.Clean` (lexical cleaning of slash-separated paths). -/
def goPathClean (p : String) : String :=
  if p = "" then "."
  else
    let rooted := p.data.head? = some '/'
    let comps := (goSplitChar '/' p.data).map String.mk
    let body := goJoin "/" (cleanFold rooted [] comps).reverse
    if rooted then "/" ++ body
    else if body = "" then "." else body

/-- Model of `path.Join(a, b)`: empty elements are skipped, the rest are
joined with `"/"` and the result is cleaned; `Join("", "")` is `""`. -/
def goPathJoin2 (a b : String) : String :=
  if a = "" then (if b = "" then "" else goPathClean b)
  else goPathClean (a ++ "/" ++ b)

/-! ## Model of `net/url.Parse` -/

/-- The components of a parsed Go `url.URL` that this subsystem reads. -/
structure GoURL where
  scheme : String
  host : String
  path : String
  rawQuery : String
deriving DecidableEq, Repr

/-- `true` exactly on the bytes `net/url` rejects outright: ASCII control
characters (below `' '`) and DEL (`0x7f`). -/
def isCtlByte (c : Char) : Bool :=
  c.toNat < 0x20 || c.toNat = 0x7f

/-- Splits a character list at the first occurrence of `sep`: returns the
part before it and, when `sep` occurs, the part after it. -/
def breakAtFirst (sep : Char) : List Char → List Char × Option (List Char)
  | [] => ([], none)
  | x :: xs =>
    if x = sep then ([], some xs)
    else
      let r := breakAtFirst sep xs
      (x :: r.1, r.2)

/-- Model of the Go standard library `net/url.Parse`, scoped to the inputs
this subsystem can receive (argv strings without fragments or
percent-escapes): parsing fails exactly when the string contains an ASCII
control byte, as `Parse` does via `stringContainsCTLByte`; the query is
split off at the first `'?'`; an `https://host/path` input decomposes into
scheme, host and rooted path; any other control-free string parses
successfully as an opaque path, which is what `Parse` returns for
scheme-less input (including the empty string and strings with spaces). -/
def urlParse (s : String) : Option GoURL :=
  if s.data.any isCtlByte then none
  else
    let br := breakAtFirst '?' s.data
    let rawQuery : String := String.mk (br.2.getD [])
    match br.1 with
    | 'h' :: 't' :: 't' :: 'p' :: 's' :: ':' :: '/' :: '/' :: hp =>
      let hb := breakAtFirst '/' hp
      some { scheme := "https", host := String.mk hb.1,
             path := match hb.2 with
                     | none => ""
                     | some p => String.mk ('/' :: p),
             rawQuery := rawQuery }
    | rest => some { scheme := "", host := "", path := String.mk rest, rawQuery := rawQuery }

/-! ## The connection handler (`listenToSocketConn`, lines 262-276) -/

/-- The event dispatched to the window: `transfer.URLEvent{URL: urlPtr}`
(a deep-link event carrying the parsed URL). -/
structure URLEvent where
  url : GoURL
deriving DecidableEq, Repr

/-- The argument loop of the per-connection handler: for each fragment in
order, `url.Parse` it; on a parse error `return` (aborting the remaining
fragments of this payload); on success dispatch `transfer.URLEvent` and
continue. -/
def processFrags : List String → List URLEvent
  | [] => []
  | a :: rest =>
    match urlParse a with
    | none => []
    | some u => ⟨u⟩ :: processFrags rest

/-- The per-connection handler: read the whole payload (`io.ReadAll` until
peer close), split it on `"\n"`, and run the argument loop. Returns the
events dispatched for this connection, in order. -/
def handleConn (payload : String) : List URLEvent :=
  processFrags (goSplitNl payload)

/-! ## The socket file path (lines 202-205 and 245-248) -/

/-- The socket path computed by `init` (lines 202-205):
`socketFile := path.Join(socketDirPath, socketFileName)`, with `".sock"`
appended when the joined path does not already end in `".sock"`. -/
def socketFileInit (dir name : String) : String :=
  let socketFile := goPathJoin2 dir name
  if goHasSuffix socketFile ".sock" then socketFile else socketFile ++ ".sock"

/-- The socket path recomputed by `listenToSocketConn` (lines 245-248),
character for character the same computation as in `init`. -/
def socketFileServer (dir name : String) : String :=
  let socketFile := goPathJoin2 dir name
  if goHasSuffix socketFile ".sock" then socketFile else socketFile ++ ".sock"

/-! ## The startup routine `init` (lines 189-238) -/

/-- The error kinds `init` distinguishes on the probing `net.Dial`:
`syscall.ECONNREFUSED` (socket file present, nobody listening),
`syscall.ENOENT` (socket file absent), and everything else. -/
inductive DialError
  | econnrefused
  | enoent
  | other
deriving DecidableEq, Repr

/-- Outcome of the probing `net.Dial`. -/
inductive DialResult
  | ok
  | err (e : DialError)
deriving DecidableEq, Repr

/-- Outcome of the `net.Listen` bind attempt. -/
inductive BindResult
  | ok
  | err
deriving DecidableEq, Repr

/-- The side-effecting calls `init` and the deferred cleanup perform, in
program order. -/
inductive Action
  | dial
  | removeSocketFile
  | writePayload (payload : String)
  | closeClientConn
  | bindListener
  | createEntry
  | closeListener
deriving DecidableEq, Repr

/-- Whether `init` returns normally (`proceed`) or the process is
terminated by `log.Fatal`, which exits with status 1 (`fatalExit`). -/
inductive Outcome
  | proceed
  | fatalExit
deriving DecidableEq, Repr

/-- Result of running `init`: the ordered trace of side-effecting calls,
whether the process survives `init`, and whether the package-level
`socketConn` listener is bound (non-nil) afterwards. -/
structure InitResult where
  actions : List Action
  outcome : Outcome
  listening : Bool
deriving DecidableEq, Repr

/-- Lines 229-237 of `init`, reached when the probe found no live leader:
`net.Listen` on the socket file (fatal on error, with no second probe),
then `createDesktopEntry` (on error, close the listener and exit fatally).
`acts` is the trace accumulated before the bind attempt. -/
def afterProbe (bind : BindResult) (entryOk : Bool) (acts : List Action) : InitResult :=
  match bind with
  | .err => ⟨acts ++ [.bindListener], .fatalExit, false⟩
  | .ok =>
    if entryOk then ⟨acts ++ [.bindListener, .createEntry], .proceed, true⟩
    else ⟨acts ++ [.bindListener, .createEntry, .closeListener], .fatalExit, false⟩

/-- Embedding of `init` (lines 189-238). `osArgs` is `os.Args` (program
name first). The environment's responses are explicit parameters: `dial`
for `net.Dial`, `bind` for `net.Listen`, `entryOk` for
`createDesktopEntry`, and `_writeOk` for the follower's `c.Write` — whose
result the code discards (`_, _ = c.Write(...)`), so no part of the result
depends on `_writeOk`. Control flow, in source order: an empty `mimeType`
returns at once; a successful dial writes the newline-joined
`os.Args[1:]` when there is more than one argument, closes the client
connection and dies by `log.Fatal`; `ECONNREFUSED` removes the socket file
and falls through to the bind; `ENOENT` falls through to the bind; any
other dial error dies by `log.Fatal` before any bind attempt. -/
def appInit (mimeType : String) (osArgs : List String) (dial : DialResult)
    (bind : BindResult) (entryOk : Bool) (_writeOk : Bool) : InitResult :=
  if mimeType = "" then ⟨[], .proceed, false⟩
  else
    match dial with
    | .ok =>
      ⟨[Action.dial]
          ++ (if 1 < osArgs.length
              then [Action.writePayload (goJoin "\n" (osArgs.drop 1))]
              else [])
          ++ [Action.closeClientConn],
        .fatalExit, false⟩
    | .err .econnrefused => afterProbe bind entryOk [.dial, .removeSocketFile]
    | .err .enoent => afterProbe bind entryOk [.dial]
    | .err .other => ⟨[.dial], .fatalExit, false⟩

/-! ## The accept loop (lines 240-278) -/

/-- Outcome of one `socketConn.Accept` call: a connection whose eventual
full payload is `payload`, or an error (in particular the error every
`Accept` returns once the listener has been closed). -/
inductive AcceptResult
  | ok (payload : String)
  | err
deriving DecidableEq, Repr

/-- Whether the accept loop is still iterating or has returned from
`listenToSocketConn` (which would trigger the deferred cleanup). -/
inductive LoopStatus
  | looping
  | returned
deriving DecidableEq, Repr

/-- One iteration of the accept loop (lines 254-277): an `Accept` error is
answered with `continue`, a successful `Accept` spawns a handler goroutine
dispatching `handleConn payload`. Neither branch leaves the loop. -/
def acceptIter (r : AcceptResult) : LoopStatus × List URLEvent :=
  match r with
  | .err => (.looping, [])
  | .ok payload => (.looping, handleConn payload)

/-- The deferred cleanup of `listenToSocketConn` (lines 250-253), in
source order: close the listener, then remove the socket file. It runs
when and only when `listenToSocketConn` returns after installing the
defer. -/
def cleanupSeq : List Action :=
  [.closeListener, .removeSocketFile]

/-- State of the server after consuming a finite prefix of `Accept`
outcomes: the events dispatched so far, whether the loop is still running,
and the cleanup actions performed (the deferred `cleanupSeq` if the
function has returned). -/
structure ServerRun where
  dispatched : List URLEvent
  status : LoopStatus
  cleanup : List Action
deriving DecidableEq, Repr

/-- The accept loop over a finite trace of `Accept` outcomes, iterating
`acceptIter`; if an iteration ever ended the loop, the deferred
`cleanupSeq` would run at that point. -/
def serverLoop : List AcceptResult → ServerRun
  | [] => ⟨[], .looping, []⟩
  | r :: rest =>
    let step := acceptIter r
    match step.1 with
    | .looping =>
      let s := serverLoop rest
      ⟨step.2 ++ s.dispatched, s.status, s.cleanup⟩
    | .returned => ⟨step.2, .returned, cleanupSeq⟩

/-- Embedding of `listenToSocketConn` (lines 240-278): when the
package-level `socketConn` is nil (`listening = false`) it returns at line
243, before the deferred cleanup is installed; otherwise it installs the
deferred cleanup and enters the accept loop. -/
def listenToSocketConnRun (listening : Bool) (accepts : List AcceptResult) : ServerRun :=
  if listening then serverLoop accepts
  else ⟨[], .returned, []⟩

/-! ## Helper lemmas -/

lemma drop_length_add {α : Type} (l₁ l₂ : List α) (i : ℕ) :
    (l₁ ++ l₂).drop (l₁.length + i) = l₂.drop i := by
  induction l₁ with
  | nil => simp
  | cons x xs ih => simp [Nat.succ_add, ih]

/-- `strings.HasSuffix` looks only at the tail of the string: appending on
the left does not change it when the candidate suffix fits inside the
right part. -/
lemma goHasSuffix_append (a b t : String) (h : t.length ≤ b.length) :
    goHasSuffix (a ++ b) t = goHasSuffix b t := by
  obtain ⟨la⟩ := a
  obtain ⟨lb⟩ := b
  obtain ⟨lt⟩ := t
  have h' : lt.length ≤ lb.length := h
  show (decide (lt.length ≤ (la ++ lb).length)
        && decide ((la ++ lb).drop ((la ++ lb).length - lt.length) = lt))
      = (decide (lt.length ≤ lb.length)
        && decide (lb.drop (lb.length - lt.length) = lt))
  have h1 : lt.length ≤ (la ++ lb).length := by
    rw [List.length_append]; omega
  have h2 : (la ++ lb).length - lt.length = la.length + (lb.length - lt.length) := by
    rw [List.length_append]; omega
  rw [h2, drop_length_add, decide_eq_true h1, decide_eq_true h']

/-! ## Claim theorems -/

/-- C1: `init`'s probe classifies the rendezvous endpoint three ways by
the `net.Dial` outcome: success (Alive) performs no deletion;
`ECONNREFUSED` (Stale) deletes the socket file; `ENOENT` (Absent)
performs no deletion; any other dial error is fatal and aborts startup —
`log.Fatal` with no bind attempt — rather than being treated as Absent. -/
theorem probe_three_way_classification
    (mt : String) (osArgs : List String) (bind : BindResult) (entryOk w : Bool)
    (hmt : mt ≠ "") :
    Action.removeSocketFile ∉ (appInit mt osArgs .ok bind entryOk w).actions
    ∧ Action.removeSocketFile ∈
        (appInit mt osArgs (.err .econnrefused) bind entryOk w).actions
    ∧ Action.removeSocketFile ∉
        (appInit mt osArgs (.err .enoent) bind entryOk w).actions
    ∧ appInit mt osArgs (.err .other) bind entryOk w
        = ⟨[.dial], .fatalExit, false⟩ := by
  refine ⟨?_, ?_, ?_, ?_⟩ <;>
    cases bind <;> cases entryOk <;>
      simp [appInit, afterProbe, hmt]

/-- C1 witness. -/
theorem probe_three_way_classification_witness :
    Action.removeSocketFile ∉ (appInit "x" ["app"] .ok .ok true true).actions
    ∧ Action.removeSocketFile ∈
        (appInit "x" ["app"] (.err .econnrefused) .ok true true).actions
    ∧ Action.removeSocketFile ∉
        (appInit "x" ["app"] (.err .enoent) .ok true true).actions
    ∧ appInit "x" ["app"] (.err .other) .ok true true
        = ⟨[.dial], .fatalExit, false⟩ :=
  probe_three_way_classification "x" ["app"] .ok true true (by decide)

/-- C2 counterexample: with the probe reporting Absent (`ENOENT`) and the
bind failing, `init` performs exactly one probe (a single `dial` action in
the whole trace) and dies by `log.Fatal` — the decide sequence is not
retried from the probe step, contrary to the claim. -/
theorem bind_failure_no_retry_cex :
    (appInit "x-scheme-handler/g" ["app"] (.err .enoent) .err true true).actions
      = [Action.dial, Action.bindListener]
    ∧ (appInit "x-scheme-handler/g" ["app"] (.err .enoent) .err true true).outcome
      = .fatalExit
    ∧ (appInit "x-scheme-handler/g" ["app"]
        (.err .enoent) .err true true).actions.count Action.dial = 1 := by
  decide

/-- C2 amended: when the probe reports Stale or Absent and the bind of the
rendezvous endpoint fails, the failure is immediately fatal; the decide
sequence is not retried — the trace holds exactly one probe. -/
theorem bind_failure_immediately_fatal
    (mt : String) (osArgs : List String) (e : DialError) (entryOk w : Bool)
    (hmt : mt ≠ "") (he : e ≠ DialError.other) :
    (appInit mt osArgs (.err e) .err entryOk w).outcome = .fatalExit
    ∧ (appInit mt osArgs (.err e) .err entryOk w).actions.count Action.dial = 1 := by
  cases e with
  | other => exact absurd rfl he
  | econnrefused => refine ⟨?_, ?_⟩ <;> simp [appInit, afterProbe, hmt]
  | enoent => refine ⟨?_, ?_⟩ <;> simp [appInit, afterProbe, hmt]

/-- C2 witness. -/
theorem bind_failure_immediately_fatal_witness :
    (appInit "x" ["app"] (.err .econnrefused) .err true true).outcome = .fatalExit
    ∧ (appInit "x" ["app"]
        (.err .econnrefused) .err true true).actions.count Action.dial = 1 :=
  bind_failure_immediately_fatal "x" ["app"] .econnrefused true true
    (by decide) (by decide)

/-- C3 counterexample: the payload `"not a url\nhttps://ok/1\n"` yields
three dispatched events, not exactly one — Go's `url.Parse` accepts
`"not a url"` (an opaque path) and the empty fragment after the trailing
newline; and when a fragment does fail to parse (here one with a control
byte), the handler's early `return` drops the well-formed sibling
`https://ok/1`, so fragments are not parsed and dispatched
independently. -/
theorem fragment_parse_failure_cex :
    (handleConn "not a url\nhttps://ok/1\n").length = 3
    ∧ handleConn "\x01\nhttps://ok/1" = [] := by
  decide

/-- C3 amended: a parse failure of a fragment aborts processing of that
fragment and all following fragments of the same payload (earlier
dispatches stand, the connection and server survive); `url.Parse` is
lenient, so the payload `"not a url\nhttps://ok/1\n"` is dispatched in
full — three events, whose second has URL `https://ok/1`. -/
theorem fragment_parse_failure_aborts_rest
    (a : String) (rest : List String) (h : urlParse a = none) :
    processFrags (a :: rest) = []
    ∧ handleConn "not a url\nhttps://ok/1\n"
      = [⟨⟨"", "", "not a url", ""⟩⟩,
         ⟨⟨"https", "ok", "/1", ""⟩⟩,
         ⟨⟨"", "", "", ""⟩⟩] := by
  refine ⟨?_, by decide⟩
  simp only [processFrags, h]

/-- C3 witness. -/
theorem fragment_parse_failure_aborts_rest_witness :
    processFrags ("\x01" :: ["https://ok/1"]) = []
    ∧ handleConn "not a url\nhttps://ok/1\n"
      = [⟨⟨"", "", "not a url", ""⟩⟩,
         ⟨⟨"https", "ok", "/1", ""⟩⟩,
         ⟨⟨"", "", "", ""⟩⟩] :=
  fragment_parse_failure_aborts_rest "\x01" ["https://ok/1"] (by decide)

/-- C4: a Follower that finds a live Leader (dial succeeds) writes
`os.Args[1:]` joined by newline as one payload, closes the connection and
terminates (`log.Fatal`); and feeding the payload of a Follower launched
with the single argument `https://app/open?id=1` to the Leader's handler
dispatches exactly one event with exactly that URL. -/
theorem follower_relay_payload
    (mt : String) (osArgs : List String) (bind : BindResult) (entryOk w : Bool)
    (hmt : mt ≠ "") (hargs : 1 < osArgs.length) :
    (appInit mt osArgs .ok bind entryOk w).actions
      = [Action.dial, Action.writePayload (goJoin "\n" (osArgs.drop 1)),
         Action.closeClientConn]
    ∧ (appInit mt osArgs .ok bind entryOk w).outcome = .fatalExit
    ∧ handleConn (goJoin "\n" ["https://app/open?id=1"])
      = [⟨⟨"https", "app", "/open", "id=1"⟩⟩] := by
  refine ⟨?_, ?_, by decide⟩ <;> simp [appInit, hmt, hargs]

/-- C4 witness. -/
theorem follower_relay_payload_witness :
    (appInit "x" ["app", "https://app/open?id=1"] .ok .ok true true).actions
      = [Action.dial,
         Action.writePayload (goJoin "\n" (["app", "https://app/open?id=1"].drop 1)),
         Action.closeClientConn]
    ∧ (appInit "x" ["app", "https://app/open?id=1"] .ok .ok true true).outcome
      = .fatalExit
    ∧ handleConn (goJoin "\n" ["https://app/open?id=1"])
      = [⟨⟨"https", "app", "/open", "id=1"⟩⟩] :=
  follower_relay_payload "x" ["app", "https://app/open?id=1"] .ok true true
    (by decide) (by decide)

/-- C5: whenever the probe finds a live Leader (dial succeeds), `init`
dies by `log.Fatal` — a non-zero exit — without ever attempting
`net.Listen`, and the package-level listener stays nil; this holds for
every argument list and every environment, in particular whether or not
the payload write succeeds (`w`), whose result the code discards. -/
theorem follower_never_binds
    (mt : String) (osArgs : List String) (bind : BindResult) (entryOk w : Bool)
    (hmt : mt ≠ "") :
    (appInit mt osArgs .ok bind entryOk w).outcome = .fatalExit
    ∧ Action.bindListener ∉ (appInit mt osArgs .ok bind entryOk w).actions
    ∧ (appInit mt osArgs .ok bind entryOk w).listening = false := by
  refine ⟨?_, ?_, ?_⟩ <;> simp [appInit, hmt]

/-- C5 witness. -/
theorem follower_never_binds_witness :
    (appInit "x" ["app"] .ok .err true false).outcome = .fatalExit
    ∧ Action.bindListener ∉ (appInit "x" ["app"] .ok .err true false).actions
    ∧ (appInit "x" ["app"] .ok .err true false).listening = false :=
  follower_never_binds "x" ["app"] .err true false (by decide)

/-- C6 (code bug): the claim says the first `Accept` error after the
listener is closed makes the loop exit normally. In the code the loop body
answers every `Accept` error with `continue` and has no exit branch at
all: once the listener is closed, `Accept` fails forever and the loop
spins without ever returning. -/
theorem accept_loop_never_exits :
    acceptIter .err = (LoopStatus.looping, [])
    ∧ ∀ r : AcceptResult, (acceptIter r).1 = LoopStatus.looping :=
  ⟨rfl, fun r => by cases r <;> rfl⟩

/-- C7 (code bug): the claim says shutdown closes the listener and then
removes the socket file, exactly once per process. The code's only such
sequence is the deferred cleanup of `listenToSocketConn` (`cleanupSeq`,
in that order), which runs only if the function returns — but the accept
loop has no exit branch, so over every finite trace of `Accept` outcomes
the loop is still running and the cleanup never executes; and when
`socketConn` is nil the function returns before the defer is installed.
No termination-signal handler exists anywhere in the subsystem to trigger
it either. -/
theorem deferred_cleanup_never_runs :
    ∀ (listening : Bool) (accepts : List AcceptResult),
      (listenToSocketConnRun listening accepts).cleanup = []
      ∧ (serverLoop accepts).status = LoopStatus.looping := by
  have key : ∀ accepts : List AcceptResult,
      (serverLoop accepts).cleanup = [] ∧ (serverLoop accepts).status = .looping := by
    intro accepts
    induction accepts with
    | nil => exact ⟨rfl, rfl⟩
    | cons r rest ih => cases r <;> simp [serverLoop, acceptIter, ih.1, ih.2]
  intro listening accepts
  cases listening with
  | false => exact ⟨rfl, (key accepts).2⟩
  | true =>
    exact ⟨by simp [listenToSocketConnRun, (key accepts).1], (key accepts).2⟩

/-- C9 counterexample: the handler parses and dispatches empty fragments
too — an entirely empty payload (a Follower launched with no arguments)
yields one event with the zero URL, and a trailing newline adds a second
event to `"https://ok/1\n"` — contradicting the claim that empty
fragments produce no DeepLinkEvent. -/
theorem empty_fragment_dispatched_cex :
    handleConn "" = [⟨⟨"", "", "", ""⟩⟩]
    ∧ (handleConn "https://ok/1\n").length = 2 := by
  decide

/-- C9 amended: every delimiter-separated fragment, including empty ones,
is parsed; Go's `url.Parse` accepts the empty string, so an empty fragment
is dispatched as an event with the zero URL: a trailing newline produces
an extra zero-URL event and the empty payload produces exactly one
zero-URL event. -/
theorem empty_fragment_yields_empty_url_event :
    urlParse "" = some ⟨"", "", "", ""⟩
    ∧ handleConn "https://ok/1\n"
      = [⟨⟨"https", "ok", "/1", ""⟩⟩, ⟨⟨"", "", "", ""⟩⟩]
    ∧ handleConn "" = [⟨⟨"", "", "", ""⟩⟩] := by
  decide

/-- C8: the rendezvous endpoint path is a deterministic pure function of
the configured directory and the socket file name: `init` and
`listenToSocketConn` compute the very same value (so two computations
with the same inputs yield the same path), and for a lexically clean
directory and a plain file name of at least the suffix's length the value
is the slash-join of the two with `".sock"` appended exactly when the
name does not already end in `".sock"`. -/
theorem socket_path_deterministic (d n : String)
    (hd : d ≠ "") (hn : 5 ≤ n.length)
    (hclean : goPathClean (d ++ "/" ++ n) = d ++ "/" ++ n) :
    socketFileServer d n = socketFileInit d n
    ∧ socketFileInit d n
      = if goHasSuffix n ".sock" then d ++ "/" ++ n
        else d ++ "/" ++ n ++ ".sock" := by
  refine ⟨rfl, ?_⟩
  have hsuf : goHasSuffix (d ++ "/" ++ n) ".sock" = goHasSuffix n ".sock" := by
    refine goHasSuffix_append (d ++ "/") n ".sock" ?_
    have h5 : (".sock" : String).length = 5 := rfl
    omega
  simp only [socketFileInit, goPathJoin2, if_neg hd, hclean, hsuf]

/-- C8 witness. -/
theorem socket_path_deterministic_witness :
    socketFileServer "/tmp" "gioapp" = socketFileInit "/tmp" "gioapp"
    ∧ socketFileInit "/tmp" "gioapp"
      = if goHasSuffix "gioapp" ".sock" then "/tmp" ++ "/" ++ "gioapp"
        else "/tmp" ++ "/" ++ "gioapp" ++ ".sock" :=
  socket_path_deterministic "/tmp" "gioapp" (by decide) (by decide) (by decide)

/-- C10: with an empty build-time `mimeType`, `init` returns at once —
no probe, no deletion, no payload write, no bind, outcome `proceed`, no
listener — and `listenToSocketConn` returns at line 243 without serving,
whatever the environment does; every instance proceeds independently. -/
theorem mimeType_empty_disables_ipc
    (osArgs : List String) (dial : DialResult) (bind : BindResult)
    (entryOk w : Bool) (accepts : List AcceptResult) :
    appInit "" osArgs dial bind entryOk w = ⟨[], .proceed, false⟩
    ∧ listenToSocketConnRun (appInit "" osArgs dial bind entryOk w).listening accepts
      = ⟨[], .returned, []⟩ :=
  ⟨rfl, rfl⟩

end Gio
